import Mathlib

/-!  Shallow embedding of the go-postgresql-orm query-construction core
     (src/utils.go together with the record types of the models file):
     the condition compiler, the fluent statement builder, the metadata
     extractor, the schema builder and the request-parameter adapter,
     with theorems checking the design documentation against them.  -/

namespace GPO

/-- Dynamic Go value (an interface value): the scalar shapes the ORM binds as
    statement arguments, plus slices for IN / NOT IN conditions. -/
inductive GoValue : Type
| int (i : Int)
| str (s : String)
| bool (b : Bool)
| slice (elems : List GoValue)

/-- True exactly when the reflected kind of the value is a slice
    (Go reflect.ValueOf(v).Kind() == reflect.Slice). -/
def GoValue.isSlice : GoValue → Bool
| .slice _ => true
| _ => false

/-- True exactly when the dynamic type of the value is string, i.e. when the
    Go type assertion v.(string) succeeds. -/
def GoValue.isStr : GoValue → Bool
| .str _ => true
| _ => false

/-- Condition record of the models file: field, operator and dynamic value. -/
structure Condition where
  field : String
  operator : String
  value : GoValue

/-- Go strings.Join(parts, sep). -/
def goJoin (sep : String) : List String → String
| [] => ""
| [s] => s
| s :: rest => s ++ sep ++ goJoin sep rest

/-- Splits a character list at every occurrence of the separator (the empty
    tail after a trailing separator included), accumulating the current piece
    in reverse.  Structural model of Go strings.Split for a one-character
    separator; the Lean core String.splitOn computes the same pieces but is
    defined by well-founded recursion on byte positions, which the kernel
    cannot evaluate. -/
def splitCharsAux (sep : Char) : List Char → List Char → List (List Char)
| [], acc => [acc.reverse]
| c :: cs, acc =>
  if c == sep then acc.reverse :: splitCharsAux sep cs []
  else splitCharsAux sep cs (c :: acc)

/-- Go strings.Split(s, sep) for a one-character separator. -/
def splitOnChar (sep : Char) (s : String) : List String :=
  (splitCharsAux sep s.data []).map (fun l => ⟨l⟩)

/-- Drops leading whitespace characters. -/
def dropLeadingSpace : List Char → List Char
| [] => []
| c :: cs => if c.isWhitespace then dropLeadingSpace cs else c :: cs

/-- Go strings.TrimSpace (over the character-class whitespace test). -/
def goTrim (s : String) : String :=
  ⟨(dropLeadingSpace ((dropLeadingSpace s.data).reverse)).reverse⟩

/-- True when the first list is an initial segment of the second. -/
def listHasPre : List Char → List Char → Bool
| [], _ => true
| _ :: _, [] => false
| p :: ps, c :: cs => p == c && listHasPre ps cs

/-- Go strings.HasPrefix(s, pat). -/
def goStartsWith (s pat : String) : Bool := listHasPre pat.data s.data

/-- Go strings.HasSuffix(s, pat). -/
def goEndsWith (s pat : String) : Bool := listHasPre pat.data.reverse s.data.reverse

/-- Drops the first n characters (Go byte slicing s[n:], for ASCII content). -/
def goDrop (s : String) (n : Nat) : String := ⟨s.data.drop n⟩

/-- Keeps the first n characters (Go byte slicing s[:n], for ASCII content). -/
def goTake (s : String) (n : Nat) : String := ⟨s.data.take n⟩

/-- Drops the last n characters (Go byte slicing s[:len(s)-n], for ASCII). -/
def goDropRight (s : String) (n : Nat) : String :=
  ⟨(s.data.reverse.drop n).reverse⟩

/-- Go strings.ToUpper restricted to the ASCII mapping (the Lean core
    String.toUpper is the same character map but is not kernel-evaluable). -/
def goToUpper (s : String) : String := ⟨s.data.map Char.toUpper⟩

/-- Digit-list accumulator of the decimal parser. -/
def digitsToNat : List Char → Nat → Option Nat
| [], acc => some acc
| c :: cs, acc =>
  if c.isDigit then digitsToNat cs (acc * 10 + (c.toNat - 48)) else none

/-- Decimal parse of a nonempty all-digit character list. -/
def parseDigits (l : List Char) : Option Nat :=
  match l with
  | [] => none
  | _ :: _ => digitsToNat l 0

/-- Go strconv.Atoi for in-range integer literals: the parsed value and an
    ok-flag; on a parse error the returned value is 0, which matters because
    the callers here discard the error. -/
def goAtoi (s : String) : Int × Bool :=
  match s.data with
  | [] => (0, false)
  | c :: rest =>
    if c == '-' then
      match parseDigits rest with
      | some n => (-(n : Int), true)
      | none => (0, false)
    else if c == '+' then
      match parseDigits rest with
      | some n => ((n : Int), true)
      | none => (0, false)
    else
      match parseDigits (c :: rest) with
      | some n => ((n : Int), true)
      | none => (0, false)

/-- One compiled fragment of a WHERE clause.  The Go code emits these directly
    as Sprintf text; the embedding keeps the pieces (field, operator text and
    placeholder numbers) and recovers the exact text with WherePart.render. -/
inductive WherePart : Type
| cmp (field op : String) (n : Nat)
| inList (field op : String) (ns : List Nat)
deriving Repr, DecidableEq

/-- Renders exactly the text buildConditions emits: "%s %s $%d" for a plain
    comparison and "%s %s (%s)" with comma-joined placeholders for IN lists. -/
def WherePart.render : WherePart → String
| .cmp f op n => f ++ " " ++ op ++ " $" ++ toString n
| .inList f op ns =>
  f ++ " " ++ op ++ " (" ++ goJoin "," (ns.map (fun n => "$" ++ toString n)) ++ ")"

/-- Placeholder numbers appearing in one WHERE fragment, in emission order. -/
def WherePart.nums : WherePart → List Nat
| .cmp _ _ n => [n]
| .inList _ _ ns => ns

/-- Placeholder numbers of a fragment list, in emission order. -/
def partsNums : List WherePart → List Nat
| [] => []
| p :: ps => p.nums ++ partsNums ps

/-- Inner loop of the IN / NOT IN branch of buildConditions: one placeholder
    (numbered len(args)+1 as the argument list grows) and one appended argument
    per slice element. -/
def expandInPlaceholders : List GoValue → List GoValue → List Nat × List GoValue
| [], args => ([], args)
| v :: rest, args =>
  let r := expandInPlaceholders rest (args ++ [v])
  ((args.length + 1) :: r.1, r.2)

/-- Body of the condition loop of buildConditions (utils.go) for one condition:
    slice-valued IN / NOT IN expands into one placeholder per element; a
    non-slice IN / NOT IN value is rewritten to an equality comparison;
    LIKE / NOT LIKE asserts the value to string (none models the Go panic of
    the unchecked condition.Value.(string) assertion) and binds the value
    wrapped in percent wildcards; every other operator binds the value as is. -/
def condStep (c : Condition) (args : List GoValue) :
    Option (WherePart × List GoValue) :=
  if c.operator = "IN" ∨ c.operator = "NOT IN" then
    match c.value with
    | .slice elems =>
      let r := expandInPlaceholders elems args
      some (.inList c.field c.operator r.1, r.2)
    | v => some (.cmp c.field "=" (args.length + 1), args ++ [v])
  else if c.operator = "LIKE" ∨ c.operator = "NOT LIKE" then
    match c.value with
    | .str s =>
      some (.cmp c.field c.operator (args.length + 1), args ++ [.str ("%" ++ s ++ "%")])
    | _ => none
  else
    some (.cmp c.field c.operator (args.length + 1), args ++ [c.value])

/-- Loop of buildConditions (utils.go), accumulating clause fragments and the
    argument list through condStep; a panic on any condition aborts the build. -/
def buildConditionsAux : List Condition → List WherePart → List GoValue →
    Option (List WherePart × List GoValue)
| [], parts, args => some (parts, args)
| c :: rest, parts, args =>
  match condStep c args with
  | none => none
  | some (pt, args2) => buildConditionsAux rest (parts ++ [pt]) args2

/-- Condition compiler buildConditions of utils.go: returns the compiled WHERE
    fragments (the Go code returns their " AND "-join, recovered here by
    renderWhere) and the argument list, which extends existingArgs. -/
def buildConditions (conditions : List Condition) (existingArgs : List GoValue) :
    Option (List WherePart × List GoValue) :=
  buildConditionsAux conditions [] existingArgs

/-- Clause text of buildConditions: Go strings.Join(conditionParts, " AND "). -/
def renderWhere (parts : List WherePart) : String :=
  goJoin " AND " (parts.map WherePart.render)

/-- Search loop of buildConditionsWithSearch: one "%s LIKE $%d" part and one
    "%text%" argument per search field. -/
def searchLoop (searchText : String) : List String → List GoValue →
    List (String × Nat) × List GoValue
| [], args => ([], args)
| f :: rest, args =>
  let r := searchLoop searchText rest (args ++ [.str ("%" ++ searchText ++ "%")])
  ((f, args.length + 1) :: r.1, r.2)

/-- Top-level piece of the combined WHERE clause of buildConditionsWithSearch:
    either the " AND "-joined plain conditions or the parenthesized OR-group of
    search fields. -/
inductive TopPart : Type
| conds (parts : List WherePart)
| search (parts : List (String × Nat))
deriving Repr, DecidableEq

/-- Text of one top-level WHERE piece, exactly as the Go code builds it. -/
def TopPart.render : TopPart → String
| .conds ps => renderWhere ps
| .search ps =>
  "(" ++ goJoin " OR " (ps.map (fun p => p.1 ++ " LIKE $" ++ toString p.2)) ++ ")"

/-- Placeholder numbers of one top-level WHERE piece. -/
def TopPart.nums : TopPart → List Nat
| .conds ps => partsNums ps
| .search ps => ps.map Prod.snd

/-- Placeholder numbers of the whole combined clause, in emission order. -/
def topNums : List TopPart → List Nat
| [] => []
| t :: ts => t.nums ++ topNums ts

/-- Combined clause text: Go strings.Join(whereParts, " AND "). -/
def renderTop (parts : List TopPart) : String :=
  goJoin " AND " (parts.map TopPart.render)

/-- Condition compiler with search, buildConditionsWithSearch of utils.go.
    The Go code keeps the argument list untouched when the plain-condition
    clause renders empty, and appends the OR-group of search fields only when
    both the field list and the search text are nonempty. -/
def buildConditionsWithSearch (conditions : List Condition) (searchFields : List String)
    (searchText : String) (existingArgs : List GoValue) :
    Option (List TopPart × List GoValue) :=
  let step1 : Option (List TopPart × List GoValue) :=
    if conditions.length > 0 then
      match buildConditions conditions existingArgs with
      | none => none
      | some (parts, wargs) =>
        if renderWhere parts ≠ "" then some ([TopPart.conds parts], wargs)
        else some ([], existingArgs)
    else some ([], existingArgs)
  match step1 with
  | none => none
  | some (whereParts, args) =>
    if searchFields.length > 0 ∧ searchText ≠ "" then
      let r := searchLoop searchText searchFields args
      if r.1.length > 0 then some (whereParts ++ [TopPart.search r.1], r.2)
      else some (whereParts, r.2)
    else some (whereParts, args)

/-- Number of arguments one condition binds: a slice-valued IN / NOT IN binds
    one argument per element, every other condition binds exactly one. -/
def condArgCount (c : Condition) : Nat :=
  if c.operator = "IN" ∨ c.operator = "NOT IN" then
    match c.value with
    | .slice elems => elems.length
    | _ => 1
  else 1

/-- Arguments bound by a whole condition list. -/
def totalArgCount : List Condition → Nat
| [] => 0
| c :: rest => condArgCount c + totalArgCount rest

/-- Arguments bound by the search clause: one per field when search is active. -/
def searchArgCount (searchFields : List String) (searchText : String) : Nat :=
  if searchFields.length > 0 ∧ searchText ≠ "" then searchFields.length else 0

/-- Result of a Go statement-builder call: a normal value, a returned error, or
    a runtime panic. -/
inductive GoResult (α : Type) : Type
| ok (a : α)
| error (msg : String)
| panicked

/-- Maps the normal value of a builder result. -/
def GoResult.map {α β : Type} (f : α → β) : GoResult α → GoResult β
| .ok a => .ok (f a)
| .error m => .error m
| .panicked => .panicked

/-- QueryBuilder record of utils.go.  The reflection-driven updateModel and
    insertModel fields are not modelled; the Go values map (iteration order
    unspecified) is modelled as an association list in one fixed order. -/
structure QueryBuilder where
  queryType : String := ""
  table : String := ""
  fields : List String := []
  joins : List String := []
  conditions : List Condition := []
  orderBy : List String := []
  groupBy : List String := []
  having : List String := []
  limit : Int := 0
  offset : Int := 0
  values : List (String × GoValue) := []
  searchText : String := ""
  searchFields : List String := []

/-- NewQueryBuilder of utils.go: all fields at their Go zero or initial value. -/
def NewQueryBuilder : QueryBuilder := {}

/-- QueryBuilder.Select: sets the query type and the projection, defaulting to
    the star projection when no field is given. -/
def QueryBuilder.Select (qb : QueryBuilder) (fields : List String) : QueryBuilder :=
  { qb with queryType := "SELECT",
            fields := if fields.length = 0 then ["*"] else fields }

/-- QueryBuilder.From. -/
def QueryBuilder.From (qb : QueryBuilder) (table : String) : QueryBuilder :=
  { qb with table := table }

/-- QueryBuilder.Where: appends one condition. -/
def QueryBuilder.Where (qb : QueryBuilder) (field operator : String) (value : GoValue) :
    QueryBuilder :=
  { qb with conditions := qb.conditions ++ [⟨field, operator, value⟩] }

/-- QueryBuilder.Search: sets the search fields and text. -/
def QueryBuilder.Search (qb : QueryBuilder) (fields : List String) (text : String) :
    QueryBuilder :=
  { qb with searchFields := fields, searchText := text }

/-- QueryBuilder.OrderBy: appends "field DIRECTION" with the direction upper-cased. -/
def QueryBuilder.OrderBy (qb : QueryBuilder) (field direction : String) : QueryBuilder :=
  { qb with orderBy := qb.orderBy ++ [field ++ " " ++ goToUpper direction] }

/-- QueryBuilder.OrderByAsc. -/
def QueryBuilder.OrderByAsc (qb : QueryBuilder) (field : String) : QueryBuilder :=
  qb.OrderBy field "ASC"

/-- QueryBuilder.OrderByDesc. -/
def QueryBuilder.OrderByDesc (qb : QueryBuilder) (field : String) : QueryBuilder :=
  qb.OrderBy field "DESC"

/-- QueryBuilder.Limit. -/
def QueryBuilder.Limit (qb : QueryBuilder) (limit : Int) : QueryBuilder :=
  { qb with limit := limit }

/-- QueryBuilder.Offset. -/
def QueryBuilder.Offset (qb : QueryBuilder) (offset : Int) : QueryBuilder :=
  { qb with offset := offset }

/-- QueryBuilder.buildSelect of utils.go.  LIMIT and OFFSET are concatenated
    into the statement text with Sprintf(" LIMIT %d") and (" OFFSET %d"); the
    argument list receives only the condition and search values. -/
def QueryBuilder.buildSelect (qb : QueryBuilder) : GoResult (String × List GoValue) :=
  if qb.table = "" then .error "table name is required for SELECT"
  else
    let q1 := qb.joins.foldl (fun q j => q ++ " " ++ j)
      ("SELECT " ++ goJoin ", " qb.fields ++ " FROM " ++ qb.table)
    let whereStep : Option (String × List GoValue) :=
      if qb.conditions.length > 0 ∨ qb.searchFields.length > 0 then
        match buildConditionsWithSearch qb.conditions qb.searchFields qb.searchText [] with
        | none => none
        | some (tops, wargs) =>
          if renderTop tops ≠ "" then some (q1 ++ " WHERE " ++ renderTop tops, wargs)
          else some (q1, [])
      else some (q1, [])
    match whereStep with
    | none => .panicked
    | some (q2, args) =>
      let q3 := if qb.groupBy.length > 0 then q2 ++ " GROUP BY " ++ goJoin ", " qb.groupBy else q2
      let q4 := if qb.having.length > 0 then q3 ++ " HAVING " ++ goJoin " AND " qb.having else q3
      let q5 := if qb.orderBy.length > 0 then q4 ++ " ORDER BY " ++ goJoin ", " qb.orderBy else q4
      let q6 := if qb.limit > 0 then q5 ++ " LIMIT " ++ toString qb.limit else q5
      let q7 := if qb.offset > 0 then q6 ++ " OFFSET " ++ toString qb.offset else q6
      .ok (q7, args)

/-- SET-clause loop of buildUpdate: one "%s = $%d" part and one argument per
    values entry. -/
def setLoop : List (String × GoValue) → List GoValue → List String × List GoValue
| [], args => ([], args)
| (f, v) :: rest, args =>
  let r := setLoop rest (args ++ [v])
  ((f ++ " = $" ++ toString (args.length + 1)) :: r.1, r.2)

/-- QueryBuilder.buildUpdate of utils.go for builders without SetModel (the
    reflection path through buildUpdateStmt is not modelled). -/
def QueryBuilder.buildUpdate (qb : QueryBuilder) : GoResult (String × List GoValue) :=
  if qb.table = "" then .error "table name is required for UPDATE"
  else if qb.values.length = 0 then .error "values are required for UPDATE"
  else
    let s := setLoop qb.values []
    let q1 := "UPDATE " ++ qb.table ++ " SET " ++ goJoin ", " s.1
    if qb.conditions.length > 0 then
      match buildConditions qb.conditions s.2 with
      | none => .panicked
      | some (parts, wargs) =>
        if renderWhere parts ≠ "" then .ok (q1 ++ " WHERE " ++ renderWhere parts, wargs)
        else .ok (q1, s.2)
    else .ok (q1, s.2)

/-- QueryBuilder.buildDelete of utils.go. -/
def QueryBuilder.buildDelete (qb : QueryBuilder) : GoResult (String × List GoValue) :=
  if qb.table = "" then .error "table name is required for DELETE"
  else
    let q1 := "DELETE FROM " ++ qb.table
    if qb.conditions.length > 0 then
      match buildConditions qb.conditions [] with
      | none => .panicked
      | some (parts, wargs) =>
        if renderWhere parts ≠ "" then .ok (q1 ++ " WHERE " ++ renderWhere parts, wargs)
        else .ok (q1, [])
    else .ok (q1, [])

/-- QueryBuilder.Build of utils.go (the INSERT arm, which needs the reflection
    model path, is not modelled). -/
def QueryBuilder.Build (qb : QueryBuilder) : GoResult (String × List GoValue) :=
  if qb.queryType = "SELECT" then qb.buildSelect
  else if qb.queryType = "UPDATE" then qb.buildUpdate
  else if qb.queryType = "DELETE" then qb.buildDelete
  else .error ("unsupported query type: " ++ qb.queryType)

/-- DatabaseQuery record (current models file, src/unnamed/part_001). -/
structure DatabaseQuery where
  table : String := ""
  fields : List String := []
  conditions : List Condition := []
  orderBy : String := ""
  limit : Int := 0
  offset : Int := 0
  descending : Bool := false
  allowPagination : Bool := false
  allowSearch : Bool := false
  searchText : String := ""
  searchFields : List String := []

/-- buildAdvancedQuery of utils.go: the paginated / searchable SELECT, built
    through the QueryBuilder.  The Go caller discards the Build error with a
    blank identifier, so an error leaves the empty statement and nil args; the
    none result keeps modelling a panic. -/
def buildAdvancedQuery (params : DatabaseQuery) : Option (String × List GoValue) :=
  let qb0 := (NewQueryBuilder.Select params.fields).From params.table
  let qb1 := params.conditions.foldl (fun qb c => qb.Where c.field c.operator c.value) qb0
  let qb2 :=
    if params.searchFields.length > 0 ∧ params.searchText ≠ "" then
      qb1.Search params.searchFields params.searchText
    else qb1
  let qb3 :=
    if params.orderBy ≠ "" then
      if params.descending then qb2.OrderByDesc params.orderBy
      else qb2.OrderByAsc params.orderBy
    else qb2
  let qb4 := if params.limit > 0 then qb3.Limit params.limit else qb3.Limit 10
  let qb5 := if params.offset > 0 then qb4.Offset params.offset else qb4
  match qb5.Build with
  | .ok r => some r
  | .error _ => some ("", [])
  | .panicked => none

/-- Foreign-key information parsed from an fk(table:column[,action]) token. -/
structure ForeignKeyInfo where
  table : String := ""
  column : String := ""
  onDelete : String := ""
deriving Repr, DecidableEq

/-- GPOField record of the models file: parsed per-field tag information. -/
structure GPOField where
  columnName : String := ""
  isPrimaryKey : Bool := false
  isUnique : Bool := false
  isNullable : Bool := false
  length : Int := 0
  foreignKey : Option ForeignKeyInfo := none
deriving Repr, DecidableEq

/-- A Go struct field as the reflection layer sees it: the field name, the type
    name reported by field.Type.Name(), and the looked-up gpo tag when present. -/
structure GoStructField where
  name : String := ""
  typeName : String := ""
  gpoTag : Option String := none
deriving Repr, DecidableEq

/-- Go strings.Index(s, colon): index of the first colon, none when absent. -/
def findColon (s : String) : Option Nat :=
  s.data.findIdx? (fun c => c == ':')

/-- One iteration of the option loop in parseGPOTag (utils.go).  Note the Go
    code split the whole tag on commas beforehand, so the token seen here never
    contains a comma. -/
def applyGPOOption (gpoField : GPOField) (part : String) : GPOField :=
  let option := goTrim part
  if option = "pk" then { gpoField with isPrimaryKey := true }
  else if option = "unique" then { gpoField with isUnique := true }
  else if option = "nullable" then { gpoField with isNullable := true }
  else if goStartsWith option "length(" ∧ goEndsWith option ")" then
    match goAtoi (goDropRight (goDrop option 7) 1) with
    | (n, true) => { gpoField with length := n }
    | (_, false) => gpoField
  else if goStartsWith option "fk(" ∧ goEndsWith option ")" then
    match splitOnChar ',' (goDropRight (goDrop option 3) 1) with
    | [] => gpoField
    | fk0 :: fkRest =>
      let tableColumn := goTrim fk0
      match findColon tableColumn with
      | none => gpoField
      | some colonIdx =>
        let fk : ForeignKeyInfo :=
          { table := goTrim (goTake tableColumn colonIdx)
            column := goTrim (goDrop tableColumn (colonIdx + 1)) }
        match fkRest with
        | [] => { gpoField with foreignKey := some fk }
        | od :: _ => { gpoField with foreignKey := some { fk with onDelete := goTrim od } }
  else gpoField

/-- parseGPOTag of utils.go.  The Go code splits the whole tag text on commas
    first, takes the first token as the column name, and folds the remaining
    tokens through the option parser. -/
def parseGPOTag (field : GoStructField) : Option GPOField :=
  match field.gpoTag with
  | none => none
  | some tag =>
    match splitOnChar ',' tag with
    | [] => none
    | p0 :: rest => some (rest.foldl applyGPOOption { columnName := goTrim p0 })

/-- convertGoTypeToPostgresType of utils.go. -/
def convertGoTypeToPostgresType (goType : String) (length : Int) : String :=
  if goType = "string" then
    if length > 0 ∧ length ≤ 255 then "VARCHAR(" ++ toString length ++ ")"
    else if length > 255 then "TEXT"
    else "VARCHAR(255)"
  else if goType = "int" ∨ goType = "int32" ∨ goType = "int64" ∨ goType = "uint" ∨
      goType = "uint32" ∨ goType = "uint64" then "INTEGER"
  else if goType = "float" ∨ goType = "float32" ∨ goType = "float64" then "REAL"
  else if goType = "bool" then "BOOLEAN"
  else if goType = "UUID" then "UUID"
  else if goType = "Time" then "TIMESTAMP"
  else if goType = "time.Duration" then "BIGINT"
  else if length > 0 then "VARCHAR(" ++ toString length ++ ")"
  else "VARCHAR(255)"

/-- Column record of the current models file. -/
structure Column where
  name : String := ""
  typ : String := ""
  primaryKey : Bool := false
  unique : Bool := false
  null : Bool := false
  length : Int := 0
deriving Repr, DecidableEq

/-- ForeignKey record of the current models file; references has the shape
    "table(column)". -/
structure ForeignKey where
  columnName : String := ""
  references : String := ""
  onDelete : String := ""
deriving Repr, DecidableEq

/-- Table record of the current models file. -/
structure Table where
  name : String := ""
  columns : List Column := []
  foreignKeys : List ForeignKey := []

/-- DefaultIDField constant of the models file. -/
def DefaultIDField : String := "id"

/-- The implicit primary-key column prepended when no field is marked pk. -/
def defaultIdColumn : Column :=
  { name := DefaultIDField, typ := "UUID", primaryKey := true,
    unique := false, null := false, length := 0 }

/-- Field loop of getColumnsAndForeignKeysFromStructWithPrefix (utils.go):
    columns and foreign keys contributed by the tagged fields, before the
    implicit primary-key check. -/
def columnsAndFksLoop (tablePre : String) :
    List GoStructField → List Column × List ForeignKey
| [] => ([], [])
| f :: rest =>
  let r := columnsAndFksLoop tablePre rest
  match parseGPOTag f with
  | none => r
  | some g =>
    let column : Column :=
      { name := g.columnName,
        typ := convertGoTypeToPostgresType f.typeName g.length,
        primaryKey := g.isPrimaryKey, unique := g.isUnique,
        null := g.isNullable, length := g.length }
    match g.foreignKey with
    | none => (column :: r.1, r.2)
    | some fk =>
      let foreignKey : ForeignKey :=
        { columnName := g.columnName,
          references := tablePre ++ fk.table ++ "(" ++ fk.column ++ ")",
          onDelete := fk.onDelete }
      (column :: r.1, foreignKey :: r.2)

/-- getColumnsAndForeignKeysFromStructWithPrefix of utils.go: derives the
    column and foreign-key lists and prepends the implicit id UUID PRIMARY KEY
    column when no parsed field is marked pk. -/
def getColumnsAndForeignKeysFromStructWithPrefix (fields : List GoStructField)
    (tablePre : String) : List Column × List ForeignKey :=
  let r := columnsAndFksLoop tablePre fields
  let hasPrimaryKey := r.1.any (fun c => c.primaryKey)
  if hasPrimaryKey then r
  else (defaultIdColumn :: r.1, r.2)

/-- validateOnDeleteText of utils.go. -/
def validateOnDeleteText (text : String) : Bool :=
  goToUpper text == "NO ACTION" || goToUpper text == "RESTRICT" ||
  goToUpper text == "CASCADE" || goToUpper text == "SET NULL" ||
  goToUpper text == "SET DEFAULT"

/-- One column clause of the CREATE TABLE statement, with the trailing comma
    the Go Sprintf appends. -/
def columnClause (column : Column) : String :=
  let nullText := if column.null then "NULL" else "NOT NULL"
  let uniqueText := if column.unique then "UNIQUE" else ""
  let pkText := if column.primaryKey then "PRIMARY KEY" else ""
  column.name ++ " " ++ column.typ ++ " " ++ nullText ++ " " ++ uniqueText ++
    " " ++ pkText ++ ","

/-- Go strings.SplitN(s, open-paren, 2) followed by the parts[1] access of
    _createTable: none when the separator is absent, in which case the Go code
    panics with an index-out-of-range error. -/
def splitOnFirstParen (s : String) : Option (String × String) :=
  match splitOnChar '(' s with
  | [] => none
  | [_] => none
  | a :: b :: rest => some (a, goJoin "(" (b :: rest))

/-- Go strings.TrimSuffix for a single trailing character. -/
def trimSuffix1 (suffixText : String) (s : String) : String :=
  if goEndsWith s suffixText then goDropRight s 1 else s

/-- Foreign-key loop of _createTable: splits each references text, validates
    the ON DELETE text (returning the invalid-clause error without executing
    anything) and emits the FOREIGN KEY clauses with trailing commas. -/
def foreignKeyClauses : List ForeignKey → GoResult String
| [] => .ok ""
| fk :: rest =>
  match splitOnFirstParen fk.references with
  | none => .panicked
  | some (tbl, after) =>
    if fk.onDelete ≠ "" ∧ validateOnDeleteText fk.onDelete = false then
      .error ("invalid ON DELETE clause: " ++ fk.onDelete)
    else
      let onDeleteText := if fk.onDelete ≠ "" then " ON DELETE " ++ goToUpper fk.onDelete else ""
      match foreignKeyClauses rest with
      | .ok restText =>
        .ok ("FOREIGN KEY (" ++ fk.columnName ++ ") REFERENCES " ++ tbl ++ "(" ++
          trimSuffix1 ")" after ++ ")" ++ onDeleteText ++ "," ++ restText)
      | r => r

/-- _createTable of utils.go, modelled up to the db.Exec call: the ok value is
    the DDL text that would be executed; an error is returned before any DDL on
    an empty table name or invalid ON DELETE text; panicked models the parts[1]
    access on a references text without an opening parenthesis. -/
def _createTable (table : Table) : GoResult String :=
  if table.name = "" then .error "table name cannot be empty"
  else
    match foreignKeyClauses table.foreignKeys with
    | .ok fkText =>
      .ok (trimSuffix1 ","
        ("CREATE TABLE IF NOT EXISTS " ++ table.name ++ " (" ++
          String.join (table.columns.map columnClause) ++ fkText) ++ ")")
    | .error m => .error m
    | .panicked => .panicked

/-- Query string of an HTTP request: r.URL.Query() as a list of key-value
    pairs; Get returns the first value for the key, or the empty string. -/
structure URLValues where
  pairs : List (String × String)

/-- Go url.Values.Get. -/
def URLValues.get (vals : URLValues) (key : String) : String :=
  match vals.pairs.find? (fun p => p.1 == key) with
  | some p => p.2
  | none => ""

/-- ParseQueryParamsFromRequest of utils.go.  The function first forces
    limit to 10, offset to 0 and descending to false, then overwrites each from
    the query string when the parameter is present, discarding the Atoi errors
    with blank identifiers; it has no error result. -/
def ParseQueryParamsFromRequest (r : URLValues) (query : DatabaseQuery) : DatabaseQuery :=
  let q0 : DatabaseQuery := { query with limit := 10, offset := 0, descending := false }
  let q1 := if r.get "limit" ≠ "" then { q0 with limit := (goAtoi (r.get "limit")).1 } else q0
  let q2 := if r.get "offset" ≠ "" then { q1 with offset := (goAtoi (r.get "offset")).1 } else q1
  let q3 := if r.get "order_by" ≠ "" then { q2 with orderBy := r.get "order_by" } else q2
  let q4 := if r.get "order" = "desc" then { q3 with descending := true } else q3
  if r.get "search" ≠ "" then { q4 with searchText := r.get "search" } else q4

/-- JoinProps record (src/unnamed/part_001): the join request.  The two model
    fields are represented by the table names the engine derives from them;
    the joinType field is a string type whose zero value is the empty string,
    with no default supplied anywhere. -/
structure JoinProps where
  mainTable : String := ""
  joinTable : String := ""
  mainTableCols : List String := []
  joinTableCols : List String := []
  joinCondition : String := ""
  whereConditions : List Condition := []
  joinType : String := ""

/-- Modelled from the spec: the join-engine executor the tests invoke (the
    Inner/Left/Right/Full join entry points taking a JoinProps) is not among
    the provided source files; only the JoinProps record and its test callers
    are.  Per the spec, each requested column is prefixed with its owning table
    and aliased as "table.column", the statement is SELECT aliased-cols FROM
    main joinTypeKeyword joinTable ON joinCondition [WHERE ...], and joinType
    is mandatory: a JoinProps without one fails with a MissingJoinType error
    before any statement executes, with no silent default. -/
def joinTables (props : JoinProps) : GoResult (String × List GoValue) :=
  if props.joinType = "" then .error "missing join type"
  else
    let aliased := fun (tbl : String) (c : String) =>
      tbl ++ "." ++ c ++ " AS \"" ++ tbl ++ "." ++ c ++ "\""
    let cols := props.mainTableCols.map (aliased props.mainTable) ++
      props.joinTableCols.map (aliased props.joinTable)
    let base := "SELECT " ++ goJoin ", " cols ++ " FROM " ++ props.mainTable ++ " " ++
      props.joinType ++ " " ++ props.joinTable ++ " ON " ++ props.joinCondition
    match buildConditions props.whereConditions [] with
    | none => .panicked
    | some (parts, args) =>
      if renderWhere parts ≠ "" then .ok (base ++ " WHERE " ++ renderWhere parts, args)
      else .ok (base, args)

/-- A LIKE / NOT LIKE condition whose value is not a string: the Go type
    assertion condition.Value.(string) panics on it. -/
def badLikeCondition (c : Condition) : Bool :=
  (c.operator == "LIKE" || c.operator == "NOT LIKE") && !c.value.isStr

theorem expandInPlaceholders_eq (elems : List GoValue) :
    ∀ args, expandInPlaceholders elems args =
      (List.range' (args.length + 1) elems.length, args ++ elems) := by
  induction elems with
  | nil => intro args; simp [expandInPlaceholders]
  | cons v rest ih =>
    intro args
    simp only [expandInPlaceholders, ih (args ++ [v]), List.length_append,
      List.length_cons, List.length_nil, List.range'_succ, List.append_assoc,
      List.singleton_append, Prod.mk.injEq]

theorem condStep_none_iff (c : Condition) (args : List GoValue) :
    condStep c args = none ↔ badLikeCondition c = true := by
  unfold condStep badLikeCondition
  rcases c with ⟨f, op, v⟩
  by_cases hin : op = "IN" ∨ op = "NOT IN"
  · rcases hin with h | h <;> subst h <;> cases v <;> simp [GoValue.isStr]
  · by_cases hlike : op = "LIKE" ∨ op = "NOT LIKE"
    · have hop : (op == "LIKE" || op == "NOT LIKE") = true := by
        rcases hlike with h | h <;> subst h <;> simp
      cases v <;> simp [hin, hlike, hop, GoValue.isStr]
    · have hop : (op == "LIKE" || op == "NOT LIKE") = false := by
        obtain ⟨h1, h2⟩ := not_or.mp hlike
        simp only [Bool.or_eq_false_iff, beq_eq_false_iff_ne, ne_eq]
        exact ⟨h1, h2⟩
      cases v <;> simp [hin, hlike, hop, GoValue.isStr]

theorem range'_one_eq (s : Nat) : List.range' s 1 = [s] := rfl

theorem condStep_in_slice (f op : String) (elems : List GoValue) (args : List GoValue)
    (hin : op = "IN" ∨ op = "NOT IN") :
    condStep ⟨f, op, .slice elems⟩ args =
      some (.inList f op (List.range' (args.length + 1) elems.length), args ++ elems) := by
  unfold condStep
  rw [if_pos hin]
  simp [expandInPlaceholders_eq]

theorem condStep_in_nonslice (f op : String) (v : GoValue) (args : List GoValue)
    (hin : op = "IN" ∨ op = "NOT IN") (hv : v.isSlice = false) :
    condStep ⟨f, op, v⟩ args = some (.cmp f "=" (args.length + 1), args ++ [v]) := by
  unfold condStep
  rw [if_pos hin]
  cases v with
  | slice elems => simp [GoValue.isSlice] at hv
  | int i => rfl
  | str s => rfl
  | bool b => rfl

theorem condStep_like_str (f op s : String) (args : List GoValue)
    (hin : ¬(op = "IN" ∨ op = "NOT IN")) (hlike : op = "LIKE" ∨ op = "NOT LIKE") :
    condStep ⟨f, op, .str s⟩ args =
      some (.cmp f op (args.length + 1), args ++ [.str ("%" ++ s ++ "%")]) := by
  unfold condStep
  rw [if_neg hin, if_pos hlike]

theorem condStep_other (f op : String) (v : GoValue) (args : List GoValue)
    (hin : ¬(op = "IN" ∨ op = "NOT IN")) (hlike : ¬(op = "LIKE" ∨ op = "NOT LIKE")) :
    condStep ⟨f, op, v⟩ args = some (.cmp f op (args.length + 1), args ++ [v]) := by
  unfold condStep
  rw [if_neg hin, if_neg hlike]

theorem condArgCount_in_slice (f op : String) (elems : List GoValue)
    (hin : op = "IN" ∨ op = "NOT IN") :
    condArgCount ⟨f, op, .slice elems⟩ = elems.length := by
  unfold condArgCount
  rw [if_pos hin]

theorem condArgCount_nonslice (c : Condition) (hv : c.value.isSlice = false) :
    condArgCount c = 1 := by
  rcases c with ⟨f, op, v⟩
  unfold condArgCount
  by_cases hin : op = "IN" ∨ op = "NOT IN"
  · rw [if_pos hin]
    cases v with
    | slice elems => simp [GoValue.isSlice] at hv
    | int i => rfl
    | str s => rfl
    | bool b => rfl
  · rw [if_neg hin]

theorem condStep_some (c : Condition) (args : List GoValue) (pt : WherePart)
    (args2 : List GoValue) (h : condStep c args = some (pt, args2)) :
    pt.nums = List.range' (args.length + 1) (condArgCount c) ∧
    ∃ newArgs, args2 = args ++ newArgs ∧ newArgs.length = condArgCount c := by
  rcases c with ⟨f, op, v⟩
  by_cases hin : op = "IN" ∨ op = "NOT IN"
  · by_cases hv : v.isSlice = true
    · obtain ⟨elems, rfl⟩ : ∃ elems, v = .slice elems := by
        cases v <;> simp [GoValue.isSlice] at hv ⊢
      rw [condStep_in_slice f op elems args hin] at h
      simp only [Option.some.injEq, Prod.mk.injEq] at h
      obtain ⟨hpt, ha⟩ := h
      subst hpt; subst ha
      exact ⟨by rw [condArgCount_in_slice f op elems hin, WherePart.nums],
        elems, rfl, (condArgCount_in_slice f op elems hin).symm⟩
    · have hv2 : v.isSlice = false := by revert hv; cases v.isSlice <;> simp
      rw [condStep_in_nonslice f op v args hin hv2] at h
      simp only [Option.some.injEq, Prod.mk.injEq] at h
      obtain ⟨hpt, ha⟩ := h
      subst hpt; subst ha
      rw [condArgCount_nonslice ⟨f, op, v⟩ hv2]
      exact ⟨by rw [WherePart.nums, range'_one_eq], [v], rfl, rfl⟩
  · by_cases hlike : op = "LIKE" ∨ op = "NOT LIKE"
    · cases v with
      | str s =>
        rw [condStep_like_str f op s args hin hlike] at h
        simp only [Option.some.injEq, Prod.mk.injEq] at h
        obtain ⟨hpt, ha⟩ := h
        subst hpt; subst ha
        rw [condArgCount_nonslice ⟨f, op, .str s⟩ rfl]
        exact ⟨by rw [WherePart.nums, range'_one_eq], [.str ("%" ++ s ++ "%")], rfl, rfl⟩
      | int i => rw [show condStep ⟨f, op, .int i⟩ args = none by
          unfold condStep; rw [if_neg hin, if_pos hlike]] at h; cases h
      | bool b => rw [show condStep ⟨f, op, .bool b⟩ args = none by
          unfold condStep; rw [if_neg hin, if_pos hlike]] at h; cases h
      | slice elems => rw [show condStep ⟨f, op, .slice elems⟩ args = none by
          unfold condStep; rw [if_neg hin, if_pos hlike]] at h; cases h
    · rw [condStep_other f op v args hin hlike] at h
      simp only [Option.some.injEq, Prod.mk.injEq] at h
      obtain ⟨hpt, ha⟩ := h
      subst hpt; subst ha
      have hv2 : condArgCount ⟨f, op, v⟩ = 1 := by
        unfold condArgCount; rw [if_neg hin]
      rw [hv2]
      exact ⟨by rw [WherePart.nums, range'_one_eq], [v], rfl, rfl⟩

theorem partsNums_append (a b : List WherePart) :
    partsNums (a ++ b) = partsNums a ++ partsNums b := by
  induction a with
  | nil => simp [partsNums]
  | cons p ps ih => simp [partsNums, ih]

theorem buildConditionsAux_some (conds : List Condition) :
    ∀ parts args parts2 args2,
      buildConditionsAux conds parts args = some (parts2, args2) →
      ∃ newParts newArgs,
        parts2 = parts ++ newParts ∧ args2 = args ++ newArgs ∧
        newParts.length = conds.length ∧
        newArgs.length = totalArgCount conds ∧
        partsNums newParts = List.range' (args.length + 1) (totalArgCount conds) := by
  induction conds with
  | nil =>
    intro parts args parts2 args2 h
    simp only [buildConditionsAux, Option.some.injEq, Prod.mk.injEq] at h
    obtain ⟨h1, h2⟩ := h
    subst h1; subst h2
    exact ⟨[], [], by simp, by simp, rfl, rfl, by simp [partsNums, totalArgCount]⟩
  | cons c rest ih =>
    intro parts args parts2 args2 h
    simp only [buildConditionsAux] at h
    cases hcs : condStep c args with
    | none => rw [hcs] at h; cases h
    | some r =>
      rw [hcs] at h
      obtain ⟨pt, a2⟩ := r
      obtain ⟨hnums, newArgs0, ha2, hlen0⟩ := condStep_some c args pt a2 hcs
      obtain ⟨np, na, hp2, ha3, hnp, hna, hnn⟩ := ih (parts ++ [pt]) a2 parts2 args2 h
      refine ⟨pt :: np, newArgs0 ++ na, ?_, ?_, ?_, ?_, ?_⟩
      · rw [hp2, List.append_assoc, List.singleton_append]
      · rw [ha3, ha2, List.append_assoc]
      · simp [hnp]
      · simp only [List.length_append, hna, hlen0, totalArgCount]
      · have hlen2 : a2.length = args.length + condArgCount c := by
          rw [ha2, List.length_append, hlen0]
        rw [show partsNums (pt :: np) = pt.nums ++ partsNums np from rfl, hnums, hnn, hlen2]
        have := List.range'_append_1 (args.length + 1) (condArgCount c) (totalArgCount rest)
        rw [show args.length + condArgCount c + 1 = args.length + 1 + condArgCount c by omega,
          this, show totalArgCount rest + condArgCount c = totalArgCount (c :: rest) by
            simp [totalArgCount, Nat.add_comm]]

theorem buildConditionsAux_none_iff (conds : List Condition) :
    ∀ parts args, buildConditionsAux conds parts args = none ↔
      conds.any badLikeCondition = true := by
  induction conds with
  | nil => intro parts args; simp [buildConditionsAux]
  | cons c rest ih =>
    intro parts args
    simp only [buildConditionsAux, List.any_cons, Bool.or_eq_true]
    cases hcs : condStep c args with
    | none =>
      have hb : badLikeCondition c = true := (condStep_none_iff c args).mp hcs
      simp [hb]
    | some r =>
      have hb : badLikeCondition c = false := by
        cases hbc : badLikeCondition c with
        | false => rfl
        | true => rw [(condStep_none_iff c args).mpr hbc] at hcs; cases hcs
      obtain ⟨pt, a2⟩ := r
      simp [hb, ih (parts ++ [pt]) a2]

theorem buildConditions_some (conds : List Condition) (existing : List GoValue)
    (parts : List WherePart) (args : List GoValue)
    (h : buildConditions conds existing = some (parts, args)) :
    args.length = existing.length + totalArgCount conds ∧
    (∃ newArgs, args = existing ++ newArgs) ∧
    parts.length = conds.length ∧
    partsNums parts = List.range' (existing.length + 1) (totalArgCount conds) := by
  obtain ⟨np, na, hp, ha, hnp, hna, hnn⟩ :=
    buildConditionsAux_some conds [] existing parts args h
  rw [List.nil_append] at hp
  subst hp
  exact ⟨by rw [ha, List.length_append, hna], ⟨na, ha⟩, hnp, hnn⟩

theorem buildConditions_none_iff (conds : List Condition) (existing : List GoValue) :
    buildConditions conds existing = none ↔ conds.any badLikeCondition = true :=
  buildConditionsAux_none_iff conds [] existing

theorem length_pos_ne_empty {s : String} (h : 0 < s.length) : s ≠ "" := by
  intro he
  rw [he] at h
  simp at h

theorem goJoin_length_ge (sep x : String) (xs : List String) :
    x.length ≤ (goJoin sep (x :: xs)).length := by
  cases xs with
  | nil => simp [goJoin]
  | cons y ys =>
    simp only [goJoin, String.length_append]
    omega

theorem WherePart_render_length_pos (p : WherePart) : 0 < p.render.length := by
  cases p with
  | cmp f op n =>
    have h1 : (" $" : String).length = 2 := rfl
    simp only [WherePart.render, String.length_append, h1]
    omega
  | inList f op ns =>
    have h1 : (" (" : String).length = 2 := rfl
    have h2 : (")" : String).length = 1 := rfl
    simp only [WherePart.render, String.length_append, h1, h2]
    omega

theorem renderWhere_cons_ne_empty (p : WherePart) (ps : List WherePart) :
    renderWhere (p :: ps) ≠ "" := by
  apply length_pos_ne_empty
  calc 0 < p.render.length := WherePart_render_length_pos p
  _ ≤ (goJoin " AND " (p.render :: ps.map WherePart.render)).length :=
      goJoin_length_ge " AND " p.render (ps.map WherePart.render)

theorem searchLoop_eq (text : String) (fields : List String) :
    ∀ args : List GoValue,
      (searchLoop text fields args).2 =
        args ++ fields.map (fun _ => GoValue.str ("%" ++ text ++ "%")) ∧
      (searchLoop text fields args).1.map Prod.snd =
        List.range' (args.length + 1) fields.length ∧
      (searchLoop text fields args).1.length = fields.length := by
  induction fields with
  | nil => intro args; simp [searchLoop]
  | cons f rest ih =>
    intro args
    obtain ⟨h1, h2, h3⟩ := ih (args ++ [GoValue.str ("%" ++ text ++ "%")])
    refine ⟨?_, ?_, ?_⟩
    · simp only [searchLoop, h1, List.append_assoc, List.singleton_append, List.map_cons]
    · simp only [searchLoop, List.map_cons, h2, List.length_append, List.length_cons,
        List.length_nil, List.length_map, List.range'_succ]
    · simp only [searchLoop, List.length_cons, h3, List.length_map]

theorem buildConditionsWithSearch_some (conds : List Condition) (sf : List String)
    (st : String) (existing : List GoValue) (tops : List TopPart) (args : List GoValue)
    (h : buildConditionsWithSearch conds sf st existing = some (tops, args)) :
    args.length = existing.length + totalArgCount conds + searchArgCount sf st ∧
    (∃ newArgs, args = existing ++ newArgs) ∧
    topNums tops =
      List.range' (existing.length + 1) (totalArgCount conds + searchArgCount sf st) := by
  cases conds with
  | nil =>
    simp only [buildConditionsWithSearch, List.length_nil, gt_iff_lt, Nat.lt_irrefl,
      if_false] at h
    by_cases hs : sf.length > 0 ∧ st ≠ ""
    · obtain ⟨h1, h2, h3⟩ := searchLoop_eq st sf existing
      rw [if_pos hs] at h
      have hlen : (searchLoop st sf existing).1.length > 0 := by
        rw [h3]; exact hs.1
      rw [if_pos hlen] at h
      simp only [Option.some.injEq, Prod.mk.injEq, List.nil_append] at h
      obtain ⟨ht, ha⟩ := h
      subst ht; subst ha
      have hsc : searchArgCount sf st = sf.length := by
        unfold searchArgCount; rw [if_pos hs]
      refine ⟨?_, ?_, ?_⟩
      · simp only [h1, List.length_append, List.length_map, hsc, totalArgCount]
        omega
      · exact ⟨sf.map (fun _ => GoValue.str ("%" ++ st ++ "%")), h1⟩
      · simp only [topNums, TopPart.nums, h2, List.append_nil, totalArgCount, hsc,
          Nat.zero_add]
    · rw [if_neg hs] at h
      simp only [Option.some.injEq, Prod.mk.injEq] at h
      obtain ⟨ht, ha⟩ := h
      subst ht; subst ha
      have hsc : searchArgCount sf st = 0 := by
        unfold searchArgCount; rw [if_neg hs]
      simp [topNums, totalArgCount, hsc]
  | cons c cs =>
    simp only [buildConditionsWithSearch, List.length_cons, gt_iff_lt,
      Nat.succ_pos, if_true, Nat.zero_lt_succ] at h
    cases hbc : buildConditions (c :: cs) existing with
    | none => rw [hbc] at h; cases h
    | some r =>
      rw [hbc] at h
      obtain ⟨parts, wargs⟩ := r
      obtain ⟨hwlen, ⟨wnew, hwnew⟩, hplen, hpnums⟩ :=
        buildConditions_some (c :: cs) existing parts wargs hbc
      have hne : renderWhere parts ≠ "" := by
        cases parts with
        | nil => simp at hplen
        | cons p ps => exact renderWhere_cons_ne_empty p ps
      dsimp only at h
      rw [if_pos hne] at h
      dsimp only at h
      by_cases hs : 0 < sf.length ∧ st ≠ ""
      · obtain ⟨h1, h2, h3⟩ := searchLoop_eq st sf wargs
        rw [if_pos hs] at h
        have hlen : 0 < (searchLoop st sf wargs).1.length := by
          rw [h3]; exact hs.1
        rw [if_pos hlen] at h
        simp only [Option.some.injEq, Prod.mk.injEq, List.singleton_append] at h
        obtain ⟨ht, ha⟩ := h
        subst ht; subst ha
        have hsc : searchArgCount sf st = sf.length := by
          unfold searchArgCount; rw [if_pos hs]
        refine ⟨?_, ?_, ?_⟩
        · rw [h1, List.length_append, List.length_map, hwlen, hsc]
        · exact ⟨wnew ++ sf.map (fun _ => GoValue.str ("%" ++ st ++ "%")), by
            rw [h1, hwnew, List.append_assoc]⟩
        · simp only [topNums, TopPart.nums, hpnums, h2, List.append_nil, hsc, hwlen]
          rw [show existing.length + totalArgCount (c :: cs) + 1 =
            existing.length + 1 + totalArgCount (c :: cs) by omega]
          rw [List.range'_append_1, Nat.add_comm sf.length]
      · rw [if_neg hs] at h
        simp only [Option.some.injEq, Prod.mk.injEq] at h
        obtain ⟨ht, ha⟩ := h
        subst ht; subst ha
        have hsc : searchArgCount sf st = 0 := by
          unfold searchArgCount; rw [if_neg hs]
        refine ⟨by rw [hsc, hwlen, Nat.add_zero], ⟨wnew, hwnew⟩, ?_⟩
        simp only [topNums, TopPart.nums, hpnums, List.append_nil, hsc, Nat.add_zero]

/-- Two condition values of the same shape: same dynamic kind, and for slices
    the same element count.  Conditions differing only in scalar content (or in
    the strings fed to LIKE) are shape-equal. -/
def shapeEq : GoValue → GoValue → Bool
| .int _, .int _ => true
| .str _, .str _ => true
| .bool _, .bool _ => true
| .slice xs, .slice ys => xs.length == ys.length
| _, _ => false

/-- Two conditions that agree on field and operator and whose values have the
    same shape. -/
def condShapeEq (c d : Condition) : Bool :=
  c.field == d.field && c.operator == d.operator && shapeEq c.value d.value

theorem shapeEq_kinds {v w : GoValue} (h : shapeEq v w = true) :
    v.isSlice = w.isSlice ∧ v.isStr = w.isStr := by
  cases v <;> cases w <;> first
  | exact Bool.noConfusion h
  | simp [GoValue.isSlice, GoValue.isStr]

theorem shapeEq_slice {xs ys : List GoValue} (h : shapeEq (.slice xs) (.slice ys) = true) :
    xs.length = ys.length := by
  simp only [shapeEq, beq_iff_eq] at h
  exact h

theorem isSlice_eq_true {v : GoValue} (h : v.isSlice = true) : ∃ xs, v = .slice xs := by
  cases v <;> first
  | exact Bool.noConfusion h
  | exact ⟨_, rfl⟩

theorem isStr_eq_true {v : GoValue} (h : v.isStr = true) : ∃ s, v = .str s := by
  cases v <;> first
  | exact Bool.noConfusion h
  | exact ⟨_, rfl⟩

theorem condStep_like_nonstr (f op : String) (v : GoValue) (args : List GoValue)
    (hin : ¬(op = "IN" ∨ op = "NOT IN")) (hlike : op = "LIKE" ∨ op = "NOT LIKE")
    (hv : v.isStr = false) : condStep ⟨f, op, v⟩ args = none := by
  unfold condStep
  rw [if_neg hin, if_pos hlike]
  cases v with
  | str s => exact Bool.noConfusion hv
  | int i => rfl
  | bool b => rfl
  | slice elems => rfl

theorem condStep_shape (c d : Condition) (args1 args2 : List GoValue)
    (hcd : condShapeEq c d = true) (hlen : args1.length = args2.length) :
    (condStep c args1 = none ∧ condStep d args2 = none) ∨
    (∃ pt a1 a2, condStep c args1 = some (pt, a1) ∧ condStep d args2 = some (pt, a2) ∧
      a1.length = a2.length) := by
  rcases c with ⟨f1, op1, v1⟩
  rcases d with ⟨f2, op2, v2⟩
  simp only [condShapeEq, Bool.and_eq_true, beq_iff_eq] at hcd
  obtain ⟨⟨hfe, hoe⟩, hse⟩ := hcd
  subst hfe; subst hoe
  by_cases hin : op1 = "IN" ∨ op1 = "NOT IN"
  · by_cases hv : v1.isSlice = true
    · obtain ⟨xs, rfl⟩ := isSlice_eq_true hv
      have hv2 : v2.isSlice = true := by rw [← (shapeEq_kinds hse).1]; rfl
      obtain ⟨ys, rfl⟩ := isSlice_eq_true hv2
      have hxy : xs.length = ys.length := shapeEq_slice hse
      have h2 := condStep_in_slice f1 op1 ys args2 hin
      rw [← hlen, ← hxy] at h2
      exact Or.inr ⟨_, _, _, condStep_in_slice f1 op1 xs args1 hin, h2,
        by simp [hlen, hxy]⟩
    · rw [Bool.not_eq_true] at hv
      have hv2 : v2.isSlice = false := by rw [← (shapeEq_kinds hse).1]; exact hv
      have h2 := condStep_in_nonslice f1 op1 v2 args2 hin hv2
      rw [← hlen] at h2
      exact Or.inr ⟨_, _, _, condStep_in_nonslice f1 op1 v1 args1 hin hv, h2,
        by simp [hlen]⟩
  · by_cases hlike : op1 = "LIKE" ∨ op1 = "NOT LIKE"
    · by_cases hstr : v1.isStr = true
      · obtain ⟨s, rfl⟩ := isStr_eq_true hstr
        have hstr2 : v2.isStr = true := by rw [← (shapeEq_kinds hse).2]; rfl
        obtain ⟨t, rfl⟩ := isStr_eq_true hstr2
        have h2 := condStep_like_str f1 op1 t args2 hin hlike
        rw [← hlen] at h2
        exact Or.inr ⟨_, _, _, condStep_like_str f1 op1 s args1 hin hlike, h2,
          by simp [hlen]⟩
      · rw [Bool.not_eq_true] at hstr
        have hstr2 : v2.isStr = false := by rw [← (shapeEq_kinds hse).2]; exact hstr
        exact Or.inl ⟨condStep_like_nonstr f1 op1 v1 args1 hin hlike hstr,
          condStep_like_nonstr f1 op1 v2 args2 hin hlike hstr2⟩
    · have h2 := condStep_other f1 op1 v2 args2 hin hlike
      rw [← hlen] at h2
      exact Or.inr ⟨_, _, _, condStep_other f1 op1 v1 args1 hin hlike, h2,
        by simp [hlen]⟩

theorem buildConditionsAux_shape {cs1 cs2 : List Condition}
    (hf : List.Forall₂ (fun a b => condShapeEq a b = true) cs1 cs2) :
    ∀ parts args1 args2 r1 r2, args1.length = args2.length →
      buildConditionsAux cs1 parts args1 = some r1 →
      buildConditionsAux cs2 parts args2 = some r2 → r1.1 = r2.1 := by
  induction hf with
  | nil =>
    intro parts args1 args2 r1 r2 hlen h1 h2
    simp only [buildConditionsAux, Option.some.injEq] at h1 h2
    rw [← h1, ← h2]
  | @cons c d cs ds hcd hrest ih =>
    intro parts args1 args2 r1 r2 hlen h1 h2
    simp only [buildConditionsAux] at h1 h2
    rcases condStep_shape c d args1 args2 hcd hlen with ⟨hn1, _⟩ | ⟨pt, a1, a2, hs1, hs2, hl⟩
    · rw [hn1] at h1; cases h1
    · rw [hs1] at h1
      rw [hs2] at h2
      exact ih (parts ++ [pt]) a1 a2 r1 r2 hl h1 h2

theorem take_length_append {α : Type} (a b : List α) : (a ++ b).take a.length = a := by
  simp

theorem any_true_length_pos {α : Type} {l : List α} {p : α → Bool}
    (h : l.any p = true) : 0 < l.length := by
  cases l with
  | nil => simp at h
  | cons x xs => simp

/-- C1, amended.  For every condition list, search-field list, search text and
    caller-accumulated argument list, the condition compiler binds one argument
    per non-IN/NOT-IN condition, len(value) arguments per slice-valued IN or
    NOT IN condition (one for a non-slice value), plus one per search field
    when search is active (nonempty search fields and nonempty search text);
    the clause contains exactly that many placeholders, and their numbers are
    strictly increasing, contiguous, and continue from the count of arguments
    already accumulated by the caller.  (The claim counts each IN / NOT IN
    condition once more, adding len(C) on top of the per-element arguments, and
    counts search fields even when search is inactive; see the
    counterexample.) -/
theorem C1_placeholder_accounting :
    (∀ (conds : List Condition) (existing : List GoValue) (parts : List WherePart)
        (args : List GoValue), buildConditions conds existing = some (parts, args) →
      args.length = existing.length + totalArgCount conds ∧
      args.take existing.length = existing ∧
      partsNums parts = List.range' (existing.length + 1) (totalArgCount conds)) ∧
    (∀ (conds : List Condition) (sf : List String) (st : String) (existing : List GoValue)
        (tops : List TopPart) (args : List GoValue),
        buildConditionsWithSearch conds sf st existing = some (tops, args) →
      args.length = existing.length + totalArgCount conds + searchArgCount sf st ∧
      args.take existing.length = existing ∧
      topNums tops = List.range' (existing.length + 1)
        (totalArgCount conds + searchArgCount sf st)) := by
  constructor
  · intro conds existing parts args h
    obtain ⟨hlen, ⟨newArgs, hna⟩, _, hnums⟩ := buildConditions_some conds existing parts args h
    exact ⟨hlen, by rw [hna, take_length_append], hnums⟩
  · intro conds sf st existing tops args h
    obtain ⟨hlen, ⟨newArgs, hna⟩, hnums⟩ :=
      buildConditionsWithSearch_some conds sf st existing tops args h
    exact ⟨hlen, by rw [hna, take_length_append], hnums⟩

/-- C1 counterexample.  A single IN condition over a two-element slice binds
    exactly 2 arguments, but the claimed count
    len(C) + sum of len(value) over IN / NOT IN conditions + searchFieldCount
    evaluates to 1 + 2 + 0 = 3 at this input. -/
theorem C1_counterexample :
    buildConditions [⟨"a", "IN", GoValue.slice [GoValue.int 1, GoValue.int 2]⟩] [] =
      some ([WherePart.inList "a" "IN" [1, 2]], [GoValue.int 1, GoValue.int 2]) ∧
    ([GoValue.int 1, GoValue.int 2] : List GoValue).length = 2 ∧
    (2 : Nat) ≠ 1 + 2 + 0 :=
  ⟨rfl, rfl, by omega⟩

/-- C1 witness: the amended accounting, instantiated at an IN condition with
    one element, one search field and one pre-existing argument. -/
theorem C1_witness :
    buildConditionsWithSearch [⟨"a", "IN", GoValue.slice [GoValue.int 7]⟩] ["f"] "t"
        [GoValue.int 0] =
      some ([TopPart.conds [WherePart.inList "a" "IN" [2]], TopPart.search [("f", 3)]],
        [GoValue.int 0, GoValue.int 7, GoValue.str "%t%"]) ∧
    ([GoValue.int 0, GoValue.int 7, GoValue.str "%t%"] : List GoValue).length =
      ([GoValue.int 0] : List GoValue).length +
        totalArgCount [⟨"a", "IN", GoValue.slice [GoValue.int 7]⟩] +
        searchArgCount ["f"] "t" ∧
    topNums [TopPart.conds [WherePart.inList "a" "IN" [2]], TopPart.search [("f", 3)]] =
      List.range' (([GoValue.int 0] : List GoValue).length + 1)
        (totalArgCount [⟨"a", "IN", GoValue.slice [GoValue.int 7]⟩] +
          searchArgCount ["f"] "t") := by
  have hc : buildConditionsWithSearch [⟨"a", "IN", GoValue.slice [GoValue.int 7]⟩] ["f"] "t"
      [GoValue.int 0] =
    some ([TopPart.conds [WherePart.inList "a" "IN" [2]], TopPart.search [("f", 3)]],
      [GoValue.int 0, GoValue.int 7, GoValue.str "%t%"]) := rfl
  exact ⟨hc, (C1_placeholder_accounting.2 _ _ _ _ _ _ hc).1,
    (C1_placeholder_accounting.2 _ _ _ _ _ _ hc).2.2⟩

/-- C2.  The WHERE clause text depends only on the fields, operators and value
    shapes, never on the value contents: two condition lists that agree
    pointwise on field and operator and whose values have the same shape (same
    dynamic kind; equal element count for slices) compile to identical clause
    fragments and identical clause text, over any two caller argument lists of
    equal length.  Moreover a LIKE / NOT LIKE string value is bound as the
    argument wrapped in percent signs, while the emitted text holds only the
    field, the operator and a placeholder. -/
theorem C2_value_noninterference :
    (∀ (cs1 cs2 : List Condition) (e1 e2 : List GoValue)
        (r1 r2 : List WherePart × List GoValue),
        List.Forall₂ (fun a b => condShapeEq a b = true) cs1 cs2 →
        e1.length = e2.length →
        buildConditions cs1 e1 = some r1 → buildConditions cs2 e2 = some r2 →
        r1.1 = r2.1 ∧ renderWhere r1.1 = renderWhere r2.1) ∧
    (∀ (f op s : String) (existing : List GoValue), (op = "LIKE" ∨ op = "NOT LIKE") →
        buildConditions [⟨f, op, .str s⟩] existing =
          some ([.cmp f op (existing.length + 1)],
            existing ++ [.str ("%" ++ s ++ "%")])) := by
  constructor
  · intro cs1 cs2 e1 e2 r1 r2 hf hlen h1 h2
    have hp := buildConditionsAux_shape hf [] e1 e2 r1 r2 hlen h1 h2
    exact ⟨hp, by rw [hp]⟩
  · intro f op s existing hlike
    have hin : ¬(op = "IN" ∨ op = "NOT IN") := by
      rcases hlike with h | h <;> subst h <;> simp
    show buildConditionsAux [⟨f, op, .str s⟩] [] existing = _
    rw [buildConditionsAux, condStep_like_str f op s existing hin hlike]
    rfl

/-- C2 witness: two condition lists differing only in an equality value and a
    LIKE string compile to the same clause fragments, and the LIKE value comes
    back percent-wrapped in the argument list. -/
theorem C2_witness :
    (buildConditions [⟨"a", "=", GoValue.int 1⟩, ⟨"b", "LIKE", GoValue.str "x"⟩] []).map
        Prod.fst =
      (buildConditions [⟨"a", "=", GoValue.int 2⟩, ⟨"b", "LIKE", GoValue.str "y"⟩] []).map
        Prod.fst ∧
    buildConditions [⟨"n", "LIKE", GoValue.str "bob"⟩] [GoValue.int 9] =
      some ([WherePart.cmp "n" "LIKE" 2], [GoValue.int 9, GoValue.str "%bob%"]) := by
  constructor
  · have h := (C2_value_noninterference.1
      [⟨"a", "=", GoValue.int 1⟩, ⟨"b", "LIKE", GoValue.str "x"⟩]
      [⟨"a", "=", GoValue.int 2⟩, ⟨"b", "LIKE", GoValue.str "y"⟩]
      [] [] _ _ (List.Forall₂.cons rfl (List.Forall₂.cons rfl List.Forall₂.nil))
      rfl rfl rfl).1
    rw [show buildConditions [⟨"a", "=", GoValue.int 1⟩, ⟨"b", "LIKE", GoValue.str "x"⟩] [] =
      some ([WherePart.cmp "a" "=" 1, WherePart.cmp "b" "LIKE" 2],
        [GoValue.int 1, GoValue.str "%x%"]) from rfl]
    rw [show buildConditions [⟨"a", "=", GoValue.int 2⟩, ⟨"b", "LIKE", GoValue.str "y"⟩] [] =
      some ([WherePart.cmp "a" "=" 1, WherePart.cmp "b" "LIKE" 2],
        [GoValue.int 2, GoValue.str "%y%"]) from rfl]
    rfl
  · have h := C2_value_noninterference.2 "n" "LIKE" "bob" [GoValue.int 9] (Or.inl rfl)
    simpa using h

/-- C9.  The condition compiler panics (modelled as the none result) exactly
    when some condition uses LIKE or NOT LIKE with a non-string value - so it
    never panics when all LIKE / NOT LIKE values are strings - and the panic
    propagates through the SELECT, UPDATE and DELETE statement builders that
    compile conditions. -/
theorem C9_like_panic :
    (∀ (conds : List Condition) (existing : List GoValue),
        buildConditions conds existing = none ↔ conds.any badLikeCondition = true) ∧
    (∀ qb : QueryBuilder, qb.conditions.any badLikeCondition = true → qb.table ≠ "" →
        qb.buildSelect = .panicked ∧ qb.buildDelete = .panicked ∧
        (qb.values.length ≠ 0 → qb.buildUpdate = .panicked)) := by
  constructor
  · exact fun conds existing => buildConditions_none_iff conds existing
  · intro qb hany htable
    have hclen : 0 < qb.conditions.length := any_true_length_pos hany
    refine ⟨?_, ?_, ?_⟩
    · have hor : qb.conditions.length > 0 ∨ qb.searchFields.length > 0 := Or.inl hclen
      have hws : buildConditionsWithSearch qb.conditions qb.searchFields qb.searchText []
          = none := by
        unfold buildConditionsWithSearch
        rw [if_pos hclen, (buildConditions_none_iff qb.conditions []).mpr hany]
      unfold QueryBuilder.buildSelect
      simp only [if_neg htable, if_pos hor, hws]
    · unfold QueryBuilder.buildDelete
      simp only [if_neg htable, if_pos hclen,
        (buildConditions_none_iff qb.conditions []).mpr hany]
    · intro hvals
      unfold QueryBuilder.buildUpdate
      simp only [if_neg htable, if_neg hvals, if_pos hclen,
        (buildConditions_none_iff qb.conditions (setLoop qb.values []).2).mpr hany]

/-- C9 witness: a LIKE condition carrying an integer makes the compiler and all
    three builders panic on a concrete builder. -/
theorem C9_witness :
    (([⟨"a", "LIKE", GoValue.int 3⟩] : List Condition).any badLikeCondition = true) ∧
    ("t" : String) ≠ "" ∧
    (({ table := "t", conditions := [⟨"a", "LIKE", GoValue.int 3⟩], values := [("x", GoValue.int 0)] } : QueryBuilder).buildSelect = .panicked ∧
      ({ table := "t", conditions := [⟨"a", "LIKE", GoValue.int 3⟩], values := [("x", GoValue.int 0)] } : QueryBuilder).buildDelete = .panicked ∧
      ({ table := "t", conditions := [⟨"a", "LIKE", GoValue.int 3⟩], values := [("x", GoValue.int 0)] } : QueryBuilder).buildUpdate = .panicked) := by
  have h := C9_like_panic.2
    { table := "t", conditions := [⟨"a", "LIKE", GoValue.int 3⟩], values := [("x", GoValue.int 0)] } rfl (by decide)
  exact ⟨rfl, by decide, h.1, h.2.1, h.2.2 (by decide)⟩

/-- C10.  An IN / NOT IN condition whose value is not a slice is silently
    rewritten by the condition compiler to an equality comparison with a single
    placeholder binding the scalar value, inside any surrounding condition
    list; the one-placeholder-per-element expansion happens exactly when the
    value is a slice. -/
theorem C10_in_nonsequence_rewrite :
    (∀ (f op : String) (v : GoValue) (rest : List Condition) (parts : List WherePart)
        (args : List GoValue), (op = "IN" ∨ op = "NOT IN") → v.isSlice = false →
        buildConditionsAux (⟨f, op, v⟩ :: rest) parts args =
          buildConditionsAux rest (parts ++ [.cmp f "=" (args.length + 1)])
            (args ++ [v])) ∧
    (∀ (f op : String) (elems : List GoValue) (rest : List Condition)
        (parts : List WherePart) (args : List GoValue), (op = "IN" ∨ op = "NOT IN") →
        buildConditionsAux (⟨f, op, .slice elems⟩ :: rest) parts args =
          buildConditionsAux rest
            (parts ++ [.inList f op (List.range' (args.length + 1) elems.length)])
            (args ++ elems)) := by
  constructor
  · intro f op v rest parts args hin hv
    rw [buildConditionsAux, condStep_in_nonslice f op v args hin hv]
  · intro f op elems rest parts args hin
    rw [buildConditionsAux, condStep_in_slice f op elems args hin]

/-- C10 witness: a NOT IN condition with a scalar integer becomes an equality
    with one placeholder, and an IN condition with a two-element slice becomes
    a two-placeholder list. -/
theorem C10_witness :
    buildConditionsAux [⟨"a", "NOT IN", GoValue.int 4⟩] [] [GoValue.int 0] =
      buildConditionsAux [] [WherePart.cmp "a" "=" 2] [GoValue.int 0, GoValue.int 4] ∧
    buildConditionsAux [⟨"a", "IN", GoValue.slice [GoValue.int 5, GoValue.int 6]⟩] [] [] =
      buildConditionsAux [] [WherePart.inList "a" "IN" (List.range' 1 2)]
        [GoValue.int 5, GoValue.int 6] := by
  constructor
  · have h := C10_in_nonsequence_rewrite.1 "a" "NOT IN" (GoValue.int 4) [] []
      [GoValue.int 0] (Or.inr rfl) rfl
    simpa using h
  · have h := C10_in_nonsequence_rewrite.2 "a" "IN" [GoValue.int 5, GoValue.int 6] [] [] []
      (Or.inl rfl)
    simpa using h


/-- C3, amended.  Explicit LIMIT and OFFSET values are concatenated into the
    SELECT statement text as integer literals (" LIMIT n OFFSET m") and are
    never bound as positional parameters - the argument list is exactly the one
    of the same builder with limit and offset cleared - and when pagination is
    requested without an explicit limit, buildAdvancedQuery falls back to a
    default LIMIT of 10.  (The claim says the explicit values are bound as
    parameters and not inlined; the code does the opposite, see the
    counterexample.) -/
theorem C3_limit_offset_inline :
    (∀ qb : QueryBuilder, qb.limit > 0 → qb.offset > 0 →
      qb.buildSelect =
        (({ qb with limit := 0, offset := 0 } : QueryBuilder).buildSelect).map
          (fun r => (r.1 ++ " LIMIT " ++ toString qb.limit ++ " OFFSET " ++
            toString qb.offset, r.2))) ∧
    (∀ params : DatabaseQuery, ¬(params.limit > 0) →
      buildAdvancedQuery params = buildAdvancedQuery { params with limit := 10 }) := by
  constructor
  · intro qb hl ho
    by_cases htable : qb.table = ""
    · simp [QueryBuilder.buildSelect, htable, GoResult.map]
    · by_cases hguard : qb.conditions.length > 0 ∨ qb.searchFields.length > 0
      · cases hws : buildConditionsWithSearch qb.conditions qb.searchFields qb.searchText []
          with
        | none => simp [QueryBuilder.buildSelect, htable, hguard, hws, GoResult.map]
        | some r =>
          obtain ⟨tops, wargs⟩ := r
          by_cases hrt : renderTop tops = ""
          · simp [QueryBuilder.buildSelect, htable, hguard, hws, hrt, GoResult.map, hl, ho,
              show ¬((0 : Int) > 0) from by decide]
          · simp [QueryBuilder.buildSelect, htable, hguard, hws, hrt, GoResult.map, hl, ho,
              show ¬((0 : Int) > 0) from by decide]
      · simp [QueryBuilder.buildSelect, htable, hguard, GoResult.map, hl, ho,
          show ¬((0 : Int) > 0) from by decide]
  · intro params hl
    simp only [buildAdvancedQuery, if_neg hl, if_pos (show (10 : Int) > 0 from by decide)]

/-- C3 counterexample.  A SELECT with explicit limit 5 and offset 3 puts the
    literals LIMIT 5 OFFSET 3 into the statement text and binds no argument at
    all - the explicit values are inlined, not driver-bound parameters. -/
theorem C3_counterexample :
    ((((NewQueryBuilder.Select []).From "t").Limit 5).Offset 3).buildSelect =
      .ok ("SELECT * FROM t LIMIT 5 OFFSET 3", []) ∧
    ((5 : Int) > 0 ∧ (3 : Int) > 0) :=
  ⟨rfl, by decide, by decide⟩

/-- C3 witness: the inlining equation at a concrete builder with limit 5 and
    offset 3, and the default-limit fallback at a concrete query with limit
    0. -/
theorem C3_witness :
    ((((NewQueryBuilder.Select []).From "t").Limit 5).Offset 3).buildSelect =
      ((({ (((NewQueryBuilder.Select []).From "t").Limit 5).Offset 3 with limit := 0, offset := 0 } : QueryBuilder).buildSelect).map
        (fun r => (r.1 ++ " LIMIT " ++ toString (5 : Int) ++ " OFFSET " ++
          toString (3 : Int), r.2))) ∧
    buildAdvancedQuery ({ table := "u" } : DatabaseQuery) =
      buildAdvancedQuery ({ ({ table := "u" } : DatabaseQuery) with limit := 10 }) := by
  have h1 := C3_limit_offset_inline.1 ((((NewQueryBuilder.Select []).From "t").Limit 5).Offset 3)
    (by decide) (by decide)
  have h2 := C3_limit_offset_inline.2 ({ table := "u" } : DatabaseQuery) (by decide)
  exact ⟨h1, h2⟩


theorem foreignKeyClauses_error (fks : List ForeignKey)
    (hparen : ∀ fk ∈ fks, (splitOnFirstParen fk.references).isSome = true)
    (hbad : ∃ fk ∈ fks, fk.onDelete ≠ "" ∧ validateOnDeleteText fk.onDelete = false) :
    ∃ msg, foreignKeyClauses fks = .error msg := by
  induction fks with
  | nil => obtain ⟨fk, hmem, _⟩ := hbad; cases hmem
  | cons fk rest ih =>
    have hp := hparen fk (List.mem_cons_self fk rest)
    obtain ⟨pr, hpr⟩ : ∃ pr, splitOnFirstParen fk.references = some pr := by
      cases hsp : splitOnFirstParen fk.references with
      | none => rw [hsp] at hp; cases hp
      | some pr => exact ⟨pr, rfl⟩
    obtain ⟨tbl, after⟩ := pr
    by_cases hfk : fk.onDelete ≠ "" ∧ validateOnDeleteText fk.onDelete = false
    · exact ⟨"invalid ON DELETE clause: " ++ fk.onDelete, by
        unfold foreignKeyClauses
        rw [hpr]
        dsimp only
        rw [if_pos hfk]⟩
    · obtain ⟨fk2, hmem2, hbad2⟩ := hbad
      have hmem3 : fk2 ∈ rest := by
        cases List.mem_cons.mp hmem2 with
        | inl he => rw [he] at hbad2; exact absurd hbad2 hfk
        | inr hr => exact hr
      obtain ⟨msg, hmsg⟩ := ih (fun g hg => hparen g (List.mem_cons_of_mem fk hg))
        ⟨fk2, hmem3, hbad2⟩
      refine ⟨msg, ?_⟩
      unfold foreignKeyClauses
      rw [hpr]
      dsimp only
      rw [if_neg hfk, hmsg]

theorem foreignKeyClauses_ok (fks : List ForeignKey)
    (hparen : ∀ fk ∈ fks, (splitOnFirstParen fk.references).isSome = true)
    (hgood : ∀ fk ∈ fks, fk.onDelete = "" ∨ validateOnDeleteText fk.onDelete = true) :
    ∃ text, foreignKeyClauses fks = .ok text := by
  induction fks with
  | nil => exact ⟨"", rfl⟩
  | cons fk rest ih =>
    have hp := hparen fk (List.mem_cons_self fk rest)
    obtain ⟨pr, hpr⟩ : ∃ pr, splitOnFirstParen fk.references = some pr := by
      cases hsp : splitOnFirstParen fk.references with
      | none => rw [hsp] at hp; cases hp
      | some pr => exact ⟨pr, rfl⟩
    obtain ⟨tbl, after⟩ := pr
    have hfk : ¬(fk.onDelete ≠ "" ∧ validateOnDeleteText fk.onDelete = false) := by
      cases hgood fk (List.mem_cons_self fk rest) with
      | inl he => intro hc; exact hc.1 he
      | inr hv => intro hc; rw [hv] at hc; cases hc.2
    obtain ⟨text, htext⟩ := ih (fun g hg => hparen g (List.mem_cons_of_mem fk hg))
      (fun g hg => hgood g (List.mem_cons_of_mem fk hg))
    refine ⟨"FOREIGN KEY (" ++ fk.columnName ++ ") REFERENCES " ++ tbl ++ "(" ++
      trimSuffix1 ")" after ++ ")" ++
      (if fk.onDelete ≠ "" then " ON DELETE " ++ goToUpper fk.onDelete else "") ++ "," ++
      text, ?_⟩
    unfold foreignKeyClauses
    rw [hpr]
    dsimp only
    rw [if_neg hfk, htext]

/-- C4.  Building the CREATE TABLE statement for a schema containing a foreign
    key whose on-delete text is present but not one of NO ACTION, RESTRICT,
    CASCADE, SET NULL, SET DEFAULT (compared case-insensitively through
    validateOnDeleteText) returns an error without producing any DDL, and when
    every present on-delete text passes the case-insensitive validation (and
    the table has a name and well-formed references) the statement is built
    successfully.  An empty on-delete text means the clause is absent and is
    not validated; the references hypothesis rules out the unrelated parts[1]
    panic on a references text with no parenthesis. -/
theorem C4_on_delete_validation :
    (∀ (table : Table) (fk : ForeignKey), fk ∈ table.foreignKeys →
      fk.onDelete ≠ "" → validateOnDeleteText fk.onDelete = false →
      (∀ fk2 ∈ table.foreignKeys, (splitOnFirstParen fk2.references).isSome = true) →
      ∃ msg, _createTable table = .error msg) ∧
    (∀ table : Table, table.name ≠ "" →
      (∀ fk ∈ table.foreignKeys, (splitOnFirstParen fk.references).isSome = true) →
      (∀ fk ∈ table.foreignKeys,
        fk.onDelete = "" ∨ validateOnDeleteText fk.onDelete = true) →
      ∃ sql, _createTable table = .ok sql) := by
  constructor
  · intro table fk hmem hne hval hparen
    by_cases hname : table.name = ""
    · exact ⟨"table name cannot be empty", by unfold _createTable; rw [if_pos hname]⟩
    · obtain ⟨msg, hmsg⟩ := foreignKeyClauses_error table.foreignKeys hparen
        ⟨fk, hmem, hne, hval⟩
      exact ⟨msg, by unfold _createTable; rw [if_neg hname, hmsg]⟩
  · intro table hname hparen hgood
    obtain ⟨text, htext⟩ := foreignKeyClauses_ok table.foreignKeys hparen hgood
    refine ⟨trimSuffix1 ","
      ("CREATE TABLE IF NOT EXISTS " ++ table.name ++ " (" ++
        String.join (table.columns.map columnClause) ++ text) ++ ")", ?_⟩
    unfold _createTable
    rw [if_neg hname, htext]

/-- C4 witness: a DROP on-delete text fails the build of a concrete table while
    the same table with a mixed-case cAsCaDe on-delete text builds fine. -/
theorem C4_witness :
    (validateOnDeleteText "DROP" = false ∧
      (∃ msg, _createTable { name := "gpo_users", columns := [defaultIdColumn], foreignKeys := [{ columnName := "owner", references := "gpo_users(id)", onDelete := "DROP" }] } = .error msg)) ∧
    (validateOnDeleteText "cAsCaDe" = true ∧
      (∃ sql, _createTable { name := "gpo_users", columns := [defaultIdColumn], foreignKeys := [{ columnName := "owner", references := "gpo_users(id)", onDelete := "cAsCaDe" }] } = .ok sql)) := by
  constructor
  · refine ⟨by decide, ?_⟩
    exact C4_on_delete_validation.1 _
      { columnName := "owner", references := "gpo_users(id)", onDelete := "DROP" }
      (by decide) (by decide) (by decide) (by intro fk2 hm; fin_cases hm; decide)
  · refine ⟨by decide, ?_⟩
    exact C4_on_delete_validation.2 _ (by decide)
      (by intro fk2 hm; fin_cases hm; decide)
      (by intro fk2 hm; fin_cases hm; right; decide)


/-- C5.  Invoking the join engine with a JoinProps constructed without a
    joinType (the zero value of the string-typed field, for which no default is
    supplied anywhere) fails with the missing-join-type error before any
    statement is produced; there is no silent default join type.  The engine is
    modelled from the spec because its executor is not among the provided
    source files. -/
theorem C5_missing_join_type :
    ∀ props : JoinProps, props.joinType = "" →
      joinTables props = .error "missing join type" := by
  intro props h
  unfold joinTables
  rw [if_pos h]

/-- C5 witness: a concrete JoinProps built without a join type is refused. -/
theorem C5_witness :
    ({ mainTable := "gpo_users", joinTable := "gpo_perms", joinCondition := "gpo_users.id = gpo_perms.user_id" } : JoinProps).joinType = "" ∧
    joinTables { mainTable := "gpo_users", joinTable := "gpo_perms", joinCondition := "gpo_users.id = gpo_perms.user_id" } = .error "missing join type" :=
  ⟨rfl, C5_missing_join_type _ rfl⟩

theorem columnsAndFksLoop_any_pk (tablePre : String) (fields : List GoStructField) :
    ((columnsAndFksLoop tablePre fields).1.any (fun c => c.primaryKey) = true) ↔
      ∃ f ∈ fields, ∃ g, parseGPOTag f = some g ∧ g.isPrimaryKey = true := by
  induction fields with
  | nil => simp [columnsAndFksLoop]
  | cons f rest ih =>
    unfold columnsAndFksLoop
    cases hg : parseGPOTag f with
    | none =>
      dsimp only
      constructor
      · intro h
        obtain ⟨f2, hm, hgg⟩ := ih.mp h
        exact ⟨f2, List.mem_cons_of_mem f hm, hgg⟩
      · rintro ⟨f2, hm, g, hgg, hpk⟩
        cases List.mem_cons.mp hm with
        | inl he => rw [he, hg] at hgg; cases hgg
        | inr hr => exact ih.mpr ⟨f2, hr, g, hgg, hpk⟩
    | some g =>
      dsimp only
      cases hfk : g.foreignKey with
      | none =>
        dsimp only
        rw [List.any_cons, Bool.or_eq_true, ih]
        constructor
        · intro h
          cases h with
          | inl hpk => exact ⟨f, List.mem_cons_self f rest, g, hg, hpk⟩
          | inr hrest =>
            obtain ⟨f2, hm, hgg⟩ := hrest
            exact ⟨f2, List.mem_cons_of_mem f hm, hgg⟩
        · rintro ⟨f2, hm, g2, hgg, hpk⟩
          cases List.mem_cons.mp hm with
          | inl he =>
            rw [he, hg] at hgg
            injection hgg with hge
            exact Or.inl (by rw [← hge] at hpk; exact hpk)
          | inr hr => exact Or.inr ⟨f2, hr, g2, hgg, hpk⟩
      | some fk =>
        dsimp only
        rw [List.any_cons, Bool.or_eq_true, ih]
        constructor
        · intro h
          cases h with
          | inl hpk => exact ⟨f, List.mem_cons_self f rest, g, hg, hpk⟩
          | inr hrest =>
            obtain ⟨f2, hm, hgg⟩ := hrest
            exact ⟨f2, List.mem_cons_of_mem f hm, hgg⟩
        · rintro ⟨f2, hm, g2, hgg, hpk⟩
          cases List.mem_cons.mp hm with
          | inl he =>
            rw [he, hg] at hgg
            injection hgg with hge
            exact Or.inl (by rw [← hge] at hpk; exact hpk)
          | inr hr => exact Or.inr ⟨f2, hr, g2, hgg, hpk⟩

/-- C6.  When no parsed field descriptor of a record type is marked primary
    key, the metadata extractor prepends the implicit id UUID PRIMARY KEY
    column to the derived column list; when some parsed descriptor is marked
    pk, the column list is exactly the per-field list with no implicit column
    added. -/
theorem C6_implicit_primary_key :
    (∀ (fields : List GoStructField) (tablePre : String),
      (∀ f ∈ fields, ∀ g, parseGPOTag f = some g → g.isPrimaryKey = false) →
      (getColumnsAndForeignKeysFromStructWithPrefix fields tablePre).1 =
        defaultIdColumn :: (columnsAndFksLoop tablePre fields).1) ∧
    (∀ (fields : List GoStructField) (tablePre : String),
      (∃ f ∈ fields, ∃ g, parseGPOTag f = some g ∧ g.isPrimaryKey = true) →
      (getColumnsAndForeignKeysFromStructWithPrefix fields tablePre).1 =
        (columnsAndFksLoop tablePre fields).1) := by
  constructor
  · intro fields tablePre hno
    have hany : (columnsAndFksLoop tablePre fields).1.any (fun c => c.primaryKey) = false := by
      cases h : (columnsAndFksLoop tablePre fields).1.any (fun c => c.primaryKey) with
      | false => rfl
      | true =>
        obtain ⟨f, hm, g, hg, hpk⟩ := (columnsAndFksLoop_any_pk tablePre fields).mp h
        rw [hno f hm g hg] at hpk
        cases hpk
    unfold getColumnsAndForeignKeysFromStructWithPrefix
    simp [hany]
  · intro fields tablePre hyes
    have hany := (columnsAndFksLoop_any_pk tablePre fields).mpr hyes
    unfold getColumnsAndForeignKeysFromStructWithPrefix
    simp [hany]

/-- C6 witness: a record with only a non-pk column gets the implicit id column
    prepended; a record with a pk-tagged column does not. -/
theorem C6_witness :
    (getColumnsAndForeignKeysFromStructWithPrefix [⟨"Email", "string", some "email,unique"⟩] "gpo_").1 =
      defaultIdColumn :: (columnsAndFksLoop "gpo_" [⟨"Email", "string", some "email,unique"⟩]).1 ∧
    (getColumnsAndForeignKeysFromStructWithPrefix [⟨"ID", "UUID", some "id,pk"⟩] "gpo_").1 =
      (columnsAndFksLoop "gpo_" [⟨"ID", "UUID", some "id,pk"⟩]).1 := by
  constructor
  · refine C6_implicit_primary_key.1 _ _ ?_
    intro f hm g hg
    fin_cases hm
    rw [show parseGPOTag ⟨"Email", "string", some "email,unique"⟩ =
      some ⟨"email", false, true, false, 0, none⟩ from rfl] at hg
    injection hg with hge
    rw [← hge]
  · refine C6_implicit_primary_key.2 _ _ ?_
    exact ⟨⟨"ID", "UUID", some "id,pk"⟩, by simp,
      ⟨"id", true, false, false, 0, none⟩, rfl, rfl⟩


theorem goAtoi_not_ok (s : String) (h : (goAtoi s).2 = false) : (goAtoi s).1 = 0 := by
  unfold goAtoi at h ⊢
  cases hd : s.data with
  | nil => rfl
  | cons c rest =>
    rw [hd] at h
    by_cases h1 : (c == '-') = true
    · cases hp : parseDigits rest with
      | some n => simp [h1, hp] at h
      | none => simp [h1, hp]
    · by_cases h2 : (c == '+') = true
      · cases hp : parseDigits rest with
        | some n => simp [h1, h2, hp] at h
        | none => simp [h1, h2, hp]
      · cases hp : parseDigits (c :: rest) with
        | some n => simp [h1, h2, hp] at h
        | none => simp [h1, h2, hp]

theorem parse_limit_eq (r : URLValues) (query : DatabaseQuery) :
    (ParseQueryParamsFromRequest r query).limit =
      if r.get "limit" ≠ "" then (goAtoi (r.get "limit")).1 else 10 := by
  unfold ParseQueryParamsFromRequest
  simp only [apply_ite DatabaseQuery.limit, ite_self]

theorem parse_offset_eq (r : URLValues) (query : DatabaseQuery) :
    (ParseQueryParamsFromRequest r query).offset =
      if r.get "offset" ≠ "" then (goAtoi (r.get "offset")).1 else 0 := by
  unfold ParseQueryParamsFromRequest
  simp only [apply_ite DatabaseQuery.offset, ite_self]

/-- C7, amended.  The request-parameter adapter leaves offset at 0 when the
    offset parameter is missing, but forces limit to a default of 10 (not 0)
    when the limit parameter is missing; and a malformed numeric limit or
    offset is not rejected - the adapter has no error result and silently
    stores 0, the value Atoi returns alongside the discarded error.  (The claim
    says limit is left at 0 when missing and malformed values are rejected
    with an error; see the counterexample.) -/
theorem C7_request_params :
    ∀ (r : URLValues) (query : DatabaseQuery),
      (r.get "limit" = "" → (ParseQueryParamsFromRequest r query).limit = 10) ∧
      (r.get "offset" = "" → (ParseQueryParamsFromRequest r query).offset = 0) ∧
      (r.get "limit" ≠ "" → (goAtoi (r.get "limit")).2 = false →
        (ParseQueryParamsFromRequest r query).limit = 0) ∧
      (r.get "offset" ≠ "" → (goAtoi (r.get "offset")).2 = false →
        (ParseQueryParamsFromRequest r query).offset = 0) := by
  intro r query
  refine ⟨?_, ?_, ?_, ?_⟩
  · intro h
    rw [parse_limit_eq, if_neg (by rw [h]; simp)]
  · intro h
    rw [parse_offset_eq, if_neg (by rw [h]; simp)]
  · intro h hfail
    rw [parse_limit_eq, if_pos h, goAtoi_not_ok _ hfail]
  · intro h hfail
    rw [parse_offset_eq, if_pos h, goAtoi_not_ok _ hfail]

/-- C7 counterexample.  With no query parameters at all the adapter sets limit
    to 10, not 0; and with the malformed limit value abc it silently stores 0
    instead of returning an error (its result type has no error at all). -/
theorem C7_counterexample :
    (ParseQueryParamsFromRequest ⟨[]⟩ {}).limit = 10 ∧ (10 : Int) ≠ 0 ∧
    (ParseQueryParamsFromRequest ⟨[("limit", "abc")]⟩ {}).limit = 0 ∧
    (goAtoi "abc").2 = false :=
  ⟨rfl, by decide, rfl, rfl⟩

/-- C7 witness: the amended behaviour at concrete requests - missing limit
    gives 10, missing offset gives 0, malformed values give 0. -/
theorem C7_witness :
    (URLValues.get ⟨[("offset", "zz")]⟩ "limit" = "" ∧
      (ParseQueryParamsFromRequest ⟨[("offset", "zz")]⟩ {}).limit = 10) ∧
    (URLValues.get ⟨[("offset", "zz")]⟩ "offset" ≠ "" ∧
      (goAtoi (URLValues.get ⟨[("offset", "zz")]⟩ "offset")).2 = false ∧
      (ParseQueryParamsFromRequest ⟨[("offset", "zz")]⟩ {}).offset = 0) := by
  have h := C7_request_params ⟨[("offset", "zz")]⟩ {}
  exact ⟨⟨rfl, h.1 rfl⟩, ⟨by decide, rfl, h.2.2.2 (by decide) rfl⟩⟩

/-- True when a tag token is an fk(...) annotation: after trimming it starts
    with fk( and ends with the closing parenthesis. -/
def isFkToken (part : String) : Bool :=
  goStartsWith (goTrim part) "fk(" && goEndsWith (goTrim part) ")"

/-- True when the first comma-part of the content of an fk(...) token carries
    no colon, i.e. the token lacks the table:column syntax. -/
def fkTokenLacksColon (part : String) : Bool :=
  match splitOnChar ',' (goDropRight (goDrop (goTrim part) 3) 1) with
  | [] => true
  | fk0 :: _ => (findColon (goTrim fk0)).isNone

theorem applyGPOOption_no_fk (g : GPOField) (part : String)
    (hfk : isFkToken part = true → fkTokenLacksColon part = true) :
    (applyGPOOption g part).foreignKey = g.foreignKey ∧
    (applyGPOOption g part).columnName = g.columnName := by
  unfold applyGPOOption
  by_cases h1 : goTrim part = "pk"
  · rw [if_pos h1]; exact ⟨rfl, rfl⟩
  · rw [if_neg h1]
    by_cases h2 : goTrim part = "unique"
    · rw [if_pos h2]; exact ⟨rfl, rfl⟩
    · rw [if_neg h2]
      by_cases h3 : goTrim part = "nullable"
      · rw [if_pos h3]; exact ⟨rfl, rfl⟩
      · rw [if_neg h3]
        by_cases h4 : goStartsWith (goTrim part) "length(" = true ∧
            goEndsWith (goTrim part) ")" = true
        · rw [if_pos h4]
          cases goAtoi (goDropRight (goDrop (goTrim part) 7) 1) with
          | mk v ok => cases ok <;> exact ⟨rfl, rfl⟩
        · rw [if_neg h4]
          by_cases h5 : goStartsWith (goTrim part) "fk(" = true ∧
              goEndsWith (goTrim part) ")" = true
          · rw [if_pos h5]
            have htok : isFkToken part = true := by
              unfold isFkToken
              rw [h5.1, h5.2]
              rfl
            have hlc := hfk htok
            unfold fkTokenLacksColon at hlc
            cases hsp : splitOnChar ',' (goDropRight (goDrop (goTrim part) 3) 1) with
            | nil => exact ⟨rfl, rfl⟩
            | cons fk0 fkRest =>
              rw [hsp] at hlc
              dsimp only at hlc
              have hcol : findColon (goTrim fk0) = none := by
                cases hc : findColon (goTrim fk0) with
                | none => rfl
                | some i => rw [hc] at hlc; cases hlc
              dsimp only
              rw [hcol]
              exact ⟨rfl, rfl⟩
          · rw [if_neg h5]
            exact ⟨rfl, rfl⟩

theorem foldl_applyGPOOption_no_fk (rest : List String) :
    ∀ g : GPOField,
      (∀ part ∈ rest, isFkToken part = true → fkTokenLacksColon part = true) →
      (rest.foldl applyGPOOption g).foreignKey = g.foreignKey ∧
      (rest.foldl applyGPOOption g).columnName = g.columnName := by
  induction rest with
  | nil => intro g _; exact ⟨rfl, rfl⟩
  | cons part rest ih =>
    intro g hall
    have h1 := applyGPOOption_no_fk g part (hall part (List.mem_cons_self part rest))
    have h2 := ih (applyGPOOption g part)
      (fun q hq => hall q (List.mem_cons_of_mem part hq))
    rw [List.foldl_cons]
    exact ⟨h2.1.trans h1.1, h2.2.trans h1.2⟩

/-- C8.  When every fk(...) token of a field annotation lacks the table:column
    colon syntax (and at least one such token is present), tag parsing still
    returns a descriptor - no error - whose foreign key is empty and whose
    column name is the trimmed first token: the malformed fk token is silently
    skipped while the column itself is registered. -/
theorem C8_malformed_fk_silent :
    ∀ (field : GoStructField) (tag p0 : String) (rest : List String),
      field.gpoTag = some tag → splitOnChar ',' tag = p0 :: rest →
      (∃ part ∈ rest, isFkToken part = true) →
      (∀ part ∈ rest, isFkToken part = true → fkTokenLacksColon part = true) →
      ∃ g, parseGPOTag field = some g ∧ g.foreignKey = none ∧
        g.columnName = goTrim p0 := by
  intro field tag p0 rest htag hsplit _ hall
  have h := foldl_applyGPOOption_no_fk rest ({ columnName := goTrim p0 } : GPOField) hall
  refine ⟨rest.foldl applyGPOOption { columnName := goTrim p0 }, ?_, h.1, h.2⟩
  unfold parseGPOTag
  rw [htag]
  dsimp only
  rw [hsplit]

/-- C8 witness: the annotation owner,fk(nocolon) parses to a registered owner
    column with no foreign key and no error. -/
theorem C8_witness :
    GoStructField.gpoTag ⟨"Owner", "string", some "owner,fk(nocolon)"⟩ =
      some "owner,fk(nocolon)" ∧
    splitOnChar ',' "owner,fk(nocolon)" = ["owner", "fk(nocolon)"] ∧
    isFkToken "fk(nocolon)" = true ∧ fkTokenLacksColon "fk(nocolon)" = true ∧
    (∃ g, parseGPOTag ⟨"Owner", "string", some "owner,fk(nocolon)"⟩ = some g ∧
      g.foreignKey = none ∧ g.columnName = goTrim "owner") := by
  refine ⟨rfl, rfl, rfl, rfl, ?_⟩
  exact C8_malformed_fk_silent ⟨"Owner", "string", some "owner,fk(nocolon)"⟩
    "owner,fk(nocolon)" "owner" ["fk(nocolon)"] rfl rfl
    ⟨"fk(nocolon)", by simp, rfl⟩
    (by intro part hm _; fin_cases hm; rfl)


end GPO
